import Mathlib

/-!
Shallow embedding of `src/index.ts` of the nestjs-mssql-orm repository.

The TypeScript source defines:
- decorators `Table` / `Column` storing class metadata,
- a class `_MssqlTable` holding a process-wide connection pool
  (`static pool`), a per-handle column list (`innerColumns`) and a
  per-handle bulk-row buffer (`innerTable.rows`), with operations
  `insert`, `table.drop`, `db.useDb`, and lifecycle methods,
- `TableFactory.createForClass` which builds a handle from metadata.

Stateful code is embedded by explicit state passing: the pool singleton is
a `Bool` (`poolExists`), the handle state is a structure, and every
operation returns its updated state together with a description of the
observable effects (queries issued, errors thrown, pool requests opened).
-/

namespace MssqlOrm

/-- The errors raised by the source (all are `new Error(...)` with a
distinguishing message; we distinguish them by constructor). -/
inductive MssqlError where
  /-- `throw new Error('Pool not initialized')` (src/index.ts:145,153). -/
  | poolNotInitialized
  /-- throw of `Invalid database name '<name>'` (src/index.ts:164). -/
  | invalidIdentifier (name : String)
  /-- `throw new Error('MSSQL_MODULE_OPTIONS.config is required')` (src/index.ts:127). -/
  | configRequired
deriving DecidableEq, Repr

/-! ## Identifier validation and query-string escaping -/

/-- The character class of the regex `/[^a-zA-Z0-9_]/` (src/index.ts:162):
`true` iff the character is inside the allow-list `[a-zA-Z0-9_]`. -/
def isAllowedChar (c : Char) : Bool :=
  (Char.ofNat 97 ≤ c && c ≤ Char.ofNat 122) ||   -- a-z
  (Char.ofNat 65 ≤ c && c ≤ Char.ofNat 90) ||    -- A-Z
  (Char.ofNat 48 ≤ c && c ≤ Char.ofNat 57) ||    -- 0-9
  c = Char.ofNat 95                               -- _

/-- `forbiddenChars.test(name)` for `/[^a-zA-Z0-9_]/` (src/index.ts:162-163). -/
def hasForbiddenChar (name : String) : Bool :=
  name.data.any (fun c => !(isAllowedChar c))

/-- Characters left untouched by `node:querystring`'s `escape`
(alphanumerics and `- . _ ! ~ * ' ( )`). -/
def qsKeeps (c : Char) : Bool :=
  (Char.ofNat 97 ≤ c && c ≤ Char.ofNat 122) ||
  (Char.ofNat 65 ≤ c && c ≤ Char.ofNat 90) ||
  (Char.ofNat 48 ≤ c && c ≤ Char.ofNat 57) ||
  c = Char.ofNat 45 || c = Char.ofNat 46 || c = Char.ofNat 95 ||
  c = Char.ofNat 33 || c = Char.ofNat 126 || c = Char.ofNat 42 ||
  c = Char.ofNat 39 || c = Char.ofNat 40 || c = Char.ofNat 41

/-- Upper-case hex digit of `n % 16`. -/
def hexDigit (n : Nat) : Char :=
  if n % 16 < 10 then Char.ofNat (48 + n % 16) else Char.ofNat (55 + n % 16)

/-- Percent-encoding `%XX` of one byte. -/
def percentEncodeByte (b : Nat) : List Char :=
  [Char.ofNat 37, hexDigit (b / 16), hexDigit b]

/-- One character of `querystring.escape`: kept characters pass through,
others are percent-encoded byte-by-byte in UTF-8. -/
def escapeChar (c : Char) : List Char :=
  if qsKeeps c then [c]
  else ((String.singleton c).toUTF8.toList.map (fun b => percentEncodeByte b.toNat)).flatten

/-- `escape` from `node:querystring` (imported at src/index.ts:22, applied
to the database name at src/index.ts:168). -/
def escape (s : String) : String :=
  String.mk ((s.data.map escapeChar).flatten)

/-! ## Connection resource manager (static pool, constructor) -/

/-- The value injected as `MSSQL_MODULE_OPTIONS` into the `_MssqlTable`
constructor (src/index.ts:117-120): `undefined`, the `mssqlExtends`
sentinel symbol, some other symbol, or an options object that does or
does not carry a truthy `config`. -/
inductive OptionsArg where
  | undef
  | extendsSentinel
  | otherSymbol
  | opts (hasConfig : Bool)
deriving DecidableEq, Repr

/-- What the constructor body does, synchronously. -/
inductive CtorEffect where
  /-- guard at src/index.ts:121-125 false: nothing attempted. -/
  | noAttempt
  /-- an error is thrown to the constructing caller. -/
  | thrown (e : MssqlError)
  /-- `new ConnectionPool(...).connect()` is kicked off (src/index.ts:130-135). -/
  | connectAttempt
deriving DecidableEq, Repr

/-- The constructor of `_MssqlTable` (src/index.ts:117-137), as a function
of the current pool state and the injected options. -/
def constructorStep (poolExists : Bool) (o : OptionsArg) : CtorEffect :=
  if poolExists then .noAttempt
  else
    match o with
    | .extendsSentinel => .noAttempt
    | .otherSymbol => .noAttempt
    | .undef => .thrown .configRequired
    | .opts hasConfig =>
        if hasConfig then .connectAttempt else .thrown .configRequired

/-- Settlement of the async `connect()` started at src/index.ts:132-135:
on success the pool singleton is set (`then` branch), on failure the error
is logged by `console.error` (`catch` branch) and the singleton stays
unset. Returns `(poolExists after, error was logged)`. -/
def connectSettle (connectOk : Bool) : Bool × Bool :=
  if connectOk then (true, false) else (false, true)

/-! ## Handle state and operations -/

/-- Per-handle mutable state: `this[innerColumns]` (the declared property
names, src/index.ts:113,220) and `this[innerTable].rows` (the bulk-row
buffer; each entry is the list of values of one buffered row,
src/index.ts:197). `V` is the type of JavaScript field values. -/
structure Handle (V : Type) where
  innerColumns : List String
  rows : List (List V)
deriving DecidableEq, Repr

/-- Total number of buffered values across all buffered rows. -/
def bufferedValueCount {V : Type} (h : Handle V) : Nat :=
  (h.rows.map List.length).sum

/-- The `rows` argument of `insert` (src/index.ts:185): a nullish value,
a single row object, or an array of rows. A row is read by property name
(`row[column]`, src/index.ts:196), so we model it as `String → V`. -/
inductive RowsArg (R : Type) where
  | nullArg
  | single (r : R)
  | array (rs : List R)

/-- The early-return guard of `insert` (src/index.ts:186-192):
`!rows || (Array.isArray(rows) && !rows?.length) || !this[innerColumns]?.length`. -/
def insertIsNoOp {R : Type} (cols : List String) : RowsArg R → Bool
  | .nullArg => true
  | .single _ => cols.isEmpty
  | .array rs => rs.isEmpty || cols.isEmpty

/-- `[rows].flat()` (src/index.ts:194). -/
def flatRows {R : Type} : RowsArg R → List R
  | .nullArg => []
  | .single r => [r]
  | .array rs => rs

/-- `this[innerColumns].map((column) => row[column])` (src/index.ts:196):
positional extraction of one row's values in declared column order. -/
def extractRow {V : Type} (cols : List String) (row : String → V) : List V :=
  cols.map row

/-- What the `insert` call itself returns / throws. -/
inductive InsertOutcome where
  /-- the bare `return;` of the guard: `undefined`, no result object. -/
  | noResult
  | thrown (e : MssqlError)
  /-- the deferred `{ exec }` object (src/index.ts:201-205). -/
  | deferred
deriving DecidableEq, Repr

/-- Result of one `insert` call: the handle state after the call, the
returned value or thrown error, and how many fresh pool requests the call
itself opened (`this.request()` at src/index.ts:200 calls
`_MssqlTable.pool.request()` when the pool exists). -/
structure InsertResult (V : Type) where
  handle : Handle V
  outcome : InsertOutcome
  requestsOpened : Nat
deriving DecidableEq, Repr

/-- `_MssqlTable.insert` (src/index.ts:185-206). The guard returns
`undefined` untouched; otherwise every flattened row's extracted values
are pushed onto the buffer (`this[innerTable].rows.add(...values)`,
src/index.ts:195-198), and only then `this.request()` runs
(src/index.ts:200): it throws `Pool not initialized` when no pool exists
(src/index.ts:152-154), else opens one fresh request against the pool and
the deferred `{ exec }` is returned. -/
def insert {V : Type} (poolExists : Bool) (h : Handle V)
    (arg : RowsArg (String → V)) : InsertResult V :=
  if insertIsNoOp h.innerColumns arg then
    ⟨h, .noResult, 0⟩
  else
    let h2 : Handle V :=
      { h with rows := h.rows ++ (flatRows arg).map (extractRow h.innerColumns) }
    if poolExists then ⟨h2, .deferred, 1⟩
    else ⟨h2, .thrown .poolNotInitialized, 0⟩

/-- Result of invoking the deferred `exec` (src/index.ts:202-204). -/
structure ExecResult (V : Type) where
  handle : Handle V
  /-- the rows handed to `request.bulk(this[innerTable])`. -/
  bulkPayload : List (List V)
  /-- fresh pool requests opened by `exec` itself: it reuses the request
  captured at src/index.ts:200, so none. -/
  requestsOpened : Nat
deriving DecidableEq, Repr

/-- `exec` of the deferred insert result: `await request.bulk(this[innerTable])`
(src/index.ts:203). The source contains no statement resetting
`this[innerTable].rows`; the external `request.bulk` call (the opaque
resource layer) reads the table descriptor and its buffered rows and
returns bulk statistics, leaving the caller-owned buffer as it was. -/
def exec {V : Type} (h : Handle V) : ExecResult V :=
  ⟨h, h.rows, 0⟩

/-- `_MssqlTable.db.useDb` (src/index.ts:159-171) as a function of the pool
state and the name. Returns `(queries issued, error thrown)`: the regex
test runs first and throws before `this.request()`; then `this.request()`
throws when no pool exists; otherwise exactly one
`USE ${escape(name)}` query is issued (src/index.ts:168). -/
def useDb (poolExists : Bool) (name : String) : List String × Option MssqlError :=
  if hasForbiddenChar name then
    ([], some (.invalidIdentifier name))
  else if poolExists then
    (["USE " ++ escape name], none)
  else
    ([], some .poolNotInitialized)

/-- The parameterized dynamic-SQL text of `table.drop` (src/index.ts:177-178). -/
def dropQueryText : String :=
  "DECLARE @sql NVARCHAR(MAX); SET @sql = \x27DROP TABLE \x27 + QUOTENAME(@name); EXEC sp_executesql @sql;"

/-- `_MssqlTable.table.drop` (src/index.ts:173-183): `this.request()` runs
first (throws `Pool not initialized` when no pool exists), then one
parameterized query is issued. Returns `(queries issued, error thrown)`. -/
def tableDrop (poolExists : Bool) : List String × Option MssqlError :=
  if poolExists then ([dropQueryText], none)
  else ([], some .poolNotInitialized)

/-! ## Metadata registry and the table handle builder -/

/-- JavaScript `String.prototype.toLowerCase`, character-wise. -/
def jsToLowerCase (s : String) : String :=
  String.mk (s.data.map Char.toLower)

/-- The `@Table` decorator's stored metadata value (src/index.ts:32-40):
`tableName?.toLowerCase() || constructor.name?.toLowerCase()`. A supplied
name is lower-cased; an absent name, or one whose lower-casing is the
empty string (falsy), falls back to the lower-cased class name. -/
def tableDecoratorStored (tableName : Option String) (ctorName : String) : String :=
  match tableName with
  | none => jsToLowerCase ctorName
  | some s =>
      let t := jsToLowerCase s
      if t = "" then jsToLowerCase ctorName else t

/-- The SQL type tags of the `sqlTypes` lookup table (src/index.ts:58-67). -/
inductive SqlTy where
  | bigInt
  | bit
  | int
  | nvarchar (n : Nat)
deriving DecidableEq, Repr

/-- The `typeof`-keyed type-inference table `sqlTypes` (src/index.ts:58-67). -/
def sqlTypes : String → Option SqlTy
  | "bigint" => some .bigInt
  | "boolean" => some .bit
  | "number" => some .int
  | "string" => some (.nvarchar 128)
  | "function" => some (.nvarchar 128)
  | "object" => some (.nvarchar 128)
  | "symbol" => some (.nvarchar 128)
  | "undefined" => some (.nvarchar 128)
  | _ => none

/-- One entry of the per-class column metadata list (src/index.ts:42-46):
`column` is the TypeScript property key, `columnName` the SQL column name,
`type` the SQL type. -/
structure ColumnMetadata where
  column : String
  columnName : String
  type : SqlTy
deriving DecidableEq, Repr

/-- The reflection metadata of one entity class, as read by
`TableFactory.createForClass` (src/index.ts:214-218): the class name, the
`tableMetadataKey` metadata (absent when `@Table` was never applied), and
the `columnMetadataKey` metadata (absent when `@Column` was never
applied — `Reflect.getMetadata` returns `undefined` then). -/
structure ClassMeta where
  name : String
  tableMeta : Option String
  columnMeta : Option (List ColumnMetadata)
deriving DecidableEq, Repr

/-- The string-keyed own property descriptors of `_MssqlTable.prototype`,
in declaration order of the class body (src/index.ts:111-207):
the constructor, `onApplicationShutdown`, the private methods
`preparedStatement` and `request`, the getters `db` and `table`, and
`insert`. (`pool` is a static field on the class, not on the prototype;
the two symbol-keyed instance fields live on instances.) -/
def prototypeOwnProps : List String :=
  ["constructor", "onApplicationShutdown", "preparedStatement", "request",
   "db", "table", "insert"]

/-- The descriptors copied onto the produced handle (src/index.ts:231-234):
`Object.getOwnPropertyDescriptors(proto)` minus the single
`delete descriptors.constructor`. -/
def copiedDescriptorNames : List String :=
  prototypeOwnProps.erase "constructor"

/-- The handle value produced by a successful `createForClass`. -/
structure CreatedHandle where
  /-- `iTable[innerColumns]` (src/index.ts:220): the property keys. -/
  innerColumns : List String
  /-- the `_Table` name (src/index.ts:222): the `tableMetadataKey` metadata,
  `undefined` when the class was never `@Table`-annotated. -/
  tableName : Option String
  /-- `iTable[innerTable].create = true` (src/index.ts:223). -/
  createFlag : Bool
  /-- the columns added to the `_Table` (src/index.ts:225-229):
  `(columnName, type, nullable)` with `nullable: true` always. -/
  tableColumns : List (String × SqlTy × Bool)
  /-- the prototype property names copied onto the handle (src/index.ts:231-234). -/
  copiedProps : List String
deriving DecidableEq, Repr

/-- `TableFactory.createForClass` (src/index.ts:210-237). `innerColumns`
is guarded (`columns?.map(...) || []`, src/index.ts:220), but the loop
`for (const column of columns)` (src/index.ts:225) iterates the raw
metadata value: when the class was never `@Column`-annotated that value is
`undefined` and the loop throws `TypeError: columns is not iterable`
(`.error ()` here). Otherwise the handle is assembled and every prototype
descriptor except `constructor` is copied onto it. -/
def createForClass (meta : ClassMeta) : Except Unit CreatedHandle :=
  match meta.columnMeta with
  | none => .error ()
  | some cols =>
      .ok { innerColumns := cols.map (fun c => c.column)
            tableName := meta.tableMeta
            createFlag := true
            tableColumns := cols.map (fun c => (c.columnName, c.type, true))
            copiedProps := copiedDescriptorNames }

/-! ## Helper lemmas -/

lemma isAllowedChar_qsKeeps {c : Char} (h : isAllowedChar c = true) :
    qsKeeps c = true := by
  revert h
  simp only [isAllowedChar, qsKeeps, Bool.or_eq_true, Bool.and_eq_true,
    decide_eq_true_eq]
  tauto

lemma escapeChar_allowed {c : Char} (h : isAllowedChar c = true) :
    escapeChar c = [c] := by
  simp [escapeChar, isAllowedChar_qsKeeps h]

lemma flatten_map_singleton {α : Type} (l : List α) :
    (l.map (fun a => [a])).flatten = l := by
  induction l with
  | nil => rfl
  | cons a t ih => simp [ih]

lemma escape_allowed {s : String} (h : ∀ c ∈ s.data, isAllowedChar c = true) :
    escape s = s := by
  have hmap : s.data.map escapeChar = s.data.map (fun c => [c]) :=
    List.map_congr_left (fun c hc => escapeChar_allowed (h c hc))
  cases s with
  | mk d =>
      simp only [escape] at *
      rw [hmap, flatten_map_singleton]

lemma hasForbiddenChar_false_iff (name : String) :
    hasForbiddenChar name = false ↔ ∀ c ∈ name.data, isAllowedChar c = true := by
  simp [hasForbiddenChar]

lemma insertIsNoOp_false {R : Type} {cols : List String} {arg : RowsArg R}
    (hc : cols ≠ []) (hr : flatRows arg ≠ []) :
    insertIsNoOp cols arg = false := by
  cases arg with
  | nullArg => simp [flatRows] at hr
  | single r => simpa [insertIsNoOp, List.isEmpty_iff] using hc
  | array rs =>
      simp only [flatRows] at hr
      simp [insertIsNoOp, List.isEmpty_iff, hr, hc]

/-- Closed form of `insert` on an accepted (non-no-op) input. -/
lemma insert_accepted {V : Type} (p : Bool) (h : Handle V)
    (arg : RowsArg (String → V)) (hc : h.innerColumns ≠ [])
    (hr : flatRows arg ≠ []) :
    insert p h arg =
      ⟨⟨h.innerColumns, h.rows ++ (flatRows arg).map (extractRow h.innerColumns)⟩,
       if p then .deferred else .thrown .poolNotInitialized,
       if p then 1 else 0⟩ := by
  have hno : insertIsNoOp h.innerColumns arg = false := insertIsNoOp_false hc hr
  cases p <;> simp [insert, hno]

lemma bufferedValueCount_mk {V : Type} (cols : List String)
    (rows0 : List (List V)) (rs : List (String → V)) :
    bufferedValueCount ⟨cols, rows0 ++ rs.map (extractRow cols)⟩
      = bufferedValueCount ⟨cols, rows0⟩ + rs.length * cols.length := by
  have hsum : ∀ l : List (String → V),
      (l.map (List.length ∘ extractRow cols)).sum = l.length * cols.length := by
    intro l
    induction l with
    | nil => simp
    | cons a t ih =>
        simp only [List.map_cons, List.sum_cons, ih, List.length_cons,
          Function.comp_apply, extractRow, List.length_map]
        ring
  simp only [bufferedValueCount, List.map_append, List.sum_append, List.map_map]
  rw [hsum rs]

/-! ## Concrete sample values used by witnesses and counterexamples -/

/-- A sample handle with two declared columns and an empty buffer. -/
def sampleHandle : Handle Nat := ⟨["a", "b"], []⟩

/-- A sample row assigning the same value to every property. -/
def rowConst (n : Nat) : String → Nat := fun _ => n

/-- A single-row insert argument. -/
def sampleSingle : RowsArg (String → Nat) := .single (rowConst 5)

/-- A two-row array insert argument. -/
def sampleArray : RowsArg (String → Nat) := .array [rowConst 6, rowConst 7]

/-! ## Claims -/

/-- C1: for every handle with a non-empty declared column list and every
non-empty row input, `insert` appends, for each row, exactly one value per
declared column to the handle's row buffer, in declared column order
(entry `i` of the appended row is the row's value at declared column `i`);
and two successive `insert` calls contributing `m` and `n` values leave
the buffer value count at its old value plus `m + n` — strict
accumulation, no overwriting. -/
theorem C1_insert_appends_per_column {V : Type} (pool1 pool2 : Bool)
    (h : Handle V) (arg1 arg2 : RowsArg (String → V))
    (hcols : h.innerColumns ≠ []) (hne1 : flatRows arg1 ≠ [])
    (hne2 : flatRows arg2 ≠ []) :
    (insert pool1 h arg1).handle.rows
        = h.rows ++ (flatRows arg1).map (extractRow h.innerColumns)
    ∧ (∀ r : String → V,
        (extractRow h.innerColumns r).length = h.innerColumns.length)
    ∧ (∀ r : String → V, ∀ i : Fin h.innerColumns.length,
        (extractRow h.innerColumns r).get
            ⟨i.val, by simp [extractRow]⟩
          = r (h.innerColumns.get i))
    ∧ bufferedValueCount (insert pool2 (insert pool1 h arg1).handle arg2).handle
        = bufferedValueCount h
          + (flatRows arg1).length * h.innerColumns.length
          + (flatRows arg2).length * h.innerColumns.length := by
  have e1 := insert_accepted pool1 h arg1 hcols hne1
  have hh1 : (insert pool1 h arg1).handle
      = ⟨h.innerColumns, h.rows ++ (flatRows arg1).map (extractRow h.innerColumns)⟩ := by
    rw [e1]
  refine ⟨by rw [hh1], fun r => by simp [extractRow], fun r i => ?_, ?_⟩
  · simp [extractRow, List.get_eq_getElem]
  · rw [hh1]
    have e2 := insert_accepted pool2
      (⟨h.innerColumns, h.rows ++ (flatRows arg1).map (extractRow h.innerColumns)⟩ : Handle V)
      arg2 hcols hne2
    simp only [e2]
    simp only [bufferedValueCount_mk]

/-- C1 witness: the theorem applied to `sampleHandle` with a single row
followed by a two-row array. -/
theorem C1_witness :
    (sampleHandle.innerColumns ≠ []
      ∧ flatRows sampleSingle ≠ [] ∧ flatRows sampleArray ≠ [])
    ∧ bufferedValueCount
        (insert false (insert true sampleHandle sampleSingle).handle sampleArray).handle
        = bufferedValueCount sampleHandle
          + (flatRows sampleSingle).length * sampleHandle.innerColumns.length
          + (flatRows sampleArray).length * sampleHandle.innerColumns.length :=
  ⟨⟨by decide, by simp [sampleSingle, flatRows], by simp [sampleArray, flatRows]⟩,
   (C1_insert_appends_per_column true false sampleHandle sampleSingle sampleArray
      (by decide) (by simp [sampleSingle, flatRows])
      (by simp [sampleArray, flatRows])).2.2.2⟩

/-- C2: when no pool has been initialized, every resource-dependent
operation fails with the pool-not-initialized error and none succeeds:
`insert` on an accepted input throws it (so the deferred `exec` is never
even produced), `table.drop` throws it issuing no query, and `db.useDb`
on a valid name throws it issuing no query. -/
theorem C2_no_pool_all_ops_fail {V : Type} (h : Handle V)
    (arg : RowsArg (String → V)) (name : String)
    (hcols : h.innerColumns ≠ []) (hne : flatRows arg ≠ [])
    (hname : hasForbiddenChar name = false) :
    (insert false h arg).outcome = .thrown .poolNotInitialized
    ∧ tableDrop false = ([], some .poolNotInitialized)
    ∧ useDb false name = ([], some .poolNotInitialized) := by
  refine ⟨?_, rfl, ?_⟩
  · rw [insert_accepted false h arg hcols hne]
    rfl
  · simp [useDb, hname]

/-- C2 witness: the theorem at `sampleHandle`, the single-row input and
the name `sales_db`. -/
theorem C2_witness :
    (sampleHandle.innerColumns ≠ [] ∧ flatRows sampleSingle ≠ []
      ∧ hasForbiddenChar "sales_db" = false)
    ∧ (insert false sampleHandle sampleSingle).outcome
        = .thrown .poolNotInitialized
    ∧ tableDrop false = ([], some .poolNotInitialized)
    ∧ useDb false "sales_db" = ([], some .poolNotInitialized) :=
  ⟨⟨by decide, by simp [sampleSingle, flatRows], by decide⟩,
   C2_no_pool_all_ops_fail sampleHandle sampleSingle "sales_db"
      (by decide) (by simp [sampleSingle, flatRows]) (by decide)⟩

/-- C3: for every database name, if some character lies outside the
allow-list `[a-zA-Z0-9_]` then `db.useDb` fails with the
invalid-identifier error and issues no query (for any pool state); if all
characters are in the allow-list then, with a pool present, validation
passes and exactly the single statement `USE <name>` is issued with no
error. -/
theorem C3_useDb_validates_identifier (name : String) :
    ((∃ c ∈ name.data, isAllowedChar c = false) →
        ∀ pool, useDb pool name = ([], some (.invalidIdentifier name)))
    ∧ ((∀ c ∈ name.data, isAllowedChar c = true) →
        useDb true name = (["USE " ++ name], none)) := by
  constructor
  · intro hbad pool
    have hf : hasForbiddenChar name = true := by
      rcases hbad with ⟨c, hc, hcbad⟩
      simp only [hasForbiddenChar, List.any_eq_true]
      exact ⟨c, hc, by simp [hcbad]⟩
    simp [useDb, hf]
  · intro hgood
    have hf : hasForbiddenChar name = false :=
      (hasForbiddenChar_false_iff name).mpr hgood
    simp [useDb, hf, escape_allowed hgood]

/-- C3 witness: `useDb true "sales_db"` issues exactly one `USE`
statement, and `useDb true "sales; DROP TABLE x"` fails with the
invalid-identifier error issuing no statement. -/
theorem C3_witness :
    useDb true "sales_db" = (["USE " ++ "sales_db"], none)
    ∧ useDb true "sales; DROP TABLE x"
        = ([], some (.invalidIdentifier "sales; DROP TABLE x")) :=
  ⟨(C3_useDb_validates_identifier "sales_db").2 (by decide),
   (C3_useDb_validates_identifier "sales; DROP TABLE x").1
      (by decide) true⟩

/-- C4 counterexample: on an accepted input with a pool present, the
`insert` call itself opens a fresh pool request (`this.request()` at
src/index.ts:200 runs before the deferred object is returned), refuting
the claim that `insert` performs no pool interaction and that the request
is opened only at `exec()`. -/
theorem C4_counterexample :
    (insert true sampleHandle sampleSingle).requestsOpened ≠ 0 := by decide

/-- C4 (amended): for every accepted input, `insert` performs synchronous
local buffering and eagerly opens the fresh pool request during the
`insert` call itself when a pool exists (throwing before opening one when
it does not); `exec` opens no further request and only performs the bulk
copy. -/
theorem C4_insert_opens_request_eagerly {V : Type} (pool : Bool)
    (h : Handle V) (arg : RowsArg (String → V))
    (hcols : h.innerColumns ≠ []) (hne : flatRows arg ≠ []) :
    (insert pool h arg).requestsOpened = (if pool then 1 else 0)
    ∧ (exec (insert pool h arg).handle).requestsOpened = 0
    ∧ (insert pool h arg).handle.rows
        = h.rows ++ (flatRows arg).map (extractRow h.innerColumns) := by
  rw [insert_accepted pool h arg hcols hne]
  exact ⟨rfl, rfl, rfl⟩

/-- C4 witness: the amended theorem at `sampleHandle` with the two-row
array input and a pool present. -/
theorem C4_witness :
    (sampleHandle.innerColumns ≠ [] ∧ flatRows sampleArray ≠ [])
    ∧ (insert true sampleHandle sampleArray).requestsOpened
        = (if true then 1 else 0)
    ∧ (exec (insert true sampleHandle sampleArray).handle).requestsOpened = 0
    ∧ (insert true sampleHandle sampleArray).handle.rows
        = sampleHandle.rows
          ++ (flatRows sampleArray).map (extractRow sampleHandle.innerColumns) :=
  ⟨⟨by decide, by simp [sampleArray, flatRows]⟩,
   C4_insert_opens_request_eagerly true sampleHandle sampleArray
      (by decide) (by simp [sampleArray, flatRows])⟩

/-- C5 counterexample: after `exec` completes, the handle's row buffer is
not empty — nothing in the source ever clears `this[innerTable].rows` —
and a subsequent `insert`+`exec` re-sends the previously flushed row
`[5, 5]` together with the new rows. -/
theorem C5_counterexample :
    (exec (insert true sampleHandle sampleSingle).handle).handle.rows ≠ []
    ∧ (exec (insert true
          (exec (insert true sampleHandle sampleSingle).handle).handle
          sampleArray).handle).bulkPayload
        = [[5, 5], [6, 6], [7, 7]] := by decide

/-- C5 (amended): `exec` bulk-copies the entire accumulated buffer and
leaves the buffer intact (the code never clears it); consequently a
subsequent accepted `insert` followed by `exec` sends the old buffer
again, as a prefix of the new payload, followed by the newly inserted
rows. -/
theorem C5_exec_keeps_buffer {V : Type} (pool : Bool) (h : Handle V)
    (arg : RowsArg (String → V))
    (hcols : h.innerColumns ≠ []) (hne : flatRows arg ≠ []) :
    (exec h).handle.rows = h.rows
    ∧ (exec (insert pool h arg).handle).bulkPayload
        = h.rows ++ (flatRows arg).map (extractRow h.innerColumns) := by
  refine ⟨rfl, ?_⟩
  rw [insert_accepted pool h arg hcols hne]
  rfl

/-- C5 witness: the amended theorem at `sampleHandle` with the single-row
input and a pool present. -/
theorem C5_witness :
    (sampleHandle.innerColumns ≠ [] ∧ flatRows sampleSingle ≠ [])
    ∧ (exec sampleHandle).handle.rows = sampleHandle.rows
    ∧ (exec (insert true sampleHandle sampleSingle).handle).bulkPayload
        = sampleHandle.rows
          ++ (flatRows sampleSingle).map (extractRow sampleHandle.innerColumns) :=
  ⟨⟨by decide, by simp [sampleSingle, flatRows]⟩,
   C5_exec_keeps_buffer true sampleHandle sampleSingle
      (by decide) (by simp [sampleSingle, flatRows])⟩

/-- C6 counterexample: for a concrete annotated class, the handle produced
by `createForClass` does carry `onApplicationShutdown` among the
descriptors copied onto it (`Object.getOwnPropertyDescriptors(proto)` at
src/index.ts:232 minus only `constructor`), refuting the claim that the
shutdown hook is never copied. -/
theorem C6_counterexample :
    createForClass ⟨"Order", some "order", some [⟨"id", "id", .int⟩]⟩
      = .ok ⟨["id"], some "order", true, [("id", .int, true)],
          ["onApplicationShutdown", "preparedStatement", "request",
           "db", "table", "insert"]⟩
    ∧ "onApplicationShutdown" ∈ copiedDescriptorNames :=
  ⟨rfl, by decide⟩

/-- C6 (amended): for every class with column metadata, `createForClass`
copies every prototype member except the constructor onto the handle —
`insert`, the `table` and `db` getters, the private request helpers, and
also `onApplicationShutdown`; the shutdown hook is omitted only from the
exported static type (`Omit<_MssqlTable, 'onApplicationShutdown'>`,
src/index.ts:106-109), not from the runtime object. -/
theorem C6_copies_all_but_constructor (meta : ClassMeta)
    (cols : List ColumnMetadata) (hm : meta.columnMeta = some cols) :
    ∃ hand : CreatedHandle, createForClass meta = .ok hand
      ∧ hand.copiedProps
          = ["onApplicationShutdown", "preparedStatement", "request",
             "db", "table", "insert"]
      ∧ "insert" ∈ hand.copiedProps ∧ "table" ∈ hand.copiedProps
      ∧ "db" ∈ hand.copiedProps
      ∧ "onApplicationShutdown" ∈ hand.copiedProps
      ∧ "constructor" ∉ hand.copiedProps := by
  obtain ⟨nm, tm, cm⟩ := meta
  have hm2 : cm = some cols := hm
  subst hm2
  refine ⟨{ innerColumns := cols.map (fun c => c.column)
            tableName := tm
            createFlag := true
            tableColumns := cols.map (fun c => (c.columnName, c.type, true))
            copiedProps := copiedDescriptorNames },
    rfl, ?_, ?_, ?_, ?_, ?_, ?_⟩
  · show copiedDescriptorNames
        = ["onApplicationShutdown", "preparedStatement", "request",
           "db", "table", "insert"]
    decide
  · show "insert" ∈ copiedDescriptorNames
    decide
  · show "table" ∈ copiedDescriptorNames
    decide
  · show "db" ∈ copiedDescriptorNames
    decide
  · show "onApplicationShutdown" ∈ copiedDescriptorNames
    decide
  · show "constructor" ∉ copiedDescriptorNames
    decide

/-- C6 witness: the amended theorem at a concrete annotated class. -/
theorem C6_witness :
    (ClassMeta.mk "Order" (some "order") (some [⟨"id", "id", .int⟩])).columnMeta
        = some [⟨"id", "id", .int⟩]
    ∧ ∃ hand : CreatedHandle,
        createForClass ⟨"Order", some "order", some [⟨"id", "id", .int⟩]⟩
          = .ok hand
        ∧ hand.copiedProps
            = ["onApplicationShutdown", "preparedStatement", "request",
               "db", "table", "insert"]
        ∧ "insert" ∈ hand.copiedProps ∧ "table" ∈ hand.copiedProps
        ∧ "db" ∈ hand.copiedProps
        ∧ "onApplicationShutdown" ∈ hand.copiedProps
        ∧ "constructor" ∉ hand.copiedProps :=
  ⟨rfl, C6_copies_all_but_constructor
      ⟨"Order", some "order", some [⟨"id", "id", .int⟩]⟩
      [⟨"id", "id", .int⟩] rfl⟩

/-- C7: the claim says a never-annotated class yields, without error, a
handle with an empty column list on which `insert` is a no-op. The code
instead throws: `for (const column of columns)` (src/index.ts:225)
iterates the raw `Reflect.getMetadata` result, which is `undefined` for a
never-annotated class, so `createForClass` fails with a `TypeError` —
even though the guard `columns?.map(...) || []` one line earlier
(src/index.ts:220) shows the tolerant intent, and even though `insert` on
an empty-column handle would indeed be a no-op. -/
theorem C7_unannotated_createForClass_throws :
    createForClass ⟨"Foo", none, none⟩ = .error ()
    ∧ ∀ arg : RowsArg (String → Nat),
        (insert true ⟨[], []⟩ arg).outcome = .noResult := by
  refine ⟨rfl, fun arg => ?_⟩
  cases arg <;> simp [insert, insertIsNoOp]

/-- C8 counterexample: with no pool yet, constructing with missing
options, or with options lacking a truthy `config`, throws the
missing-configuration error synchronously to the constructing caller
(src/index.ts:126-128) — it is not caught and logged. -/
theorem C8_counterexample :
    constructorStep false OptionsArg.undef = .thrown .configRequired
    ∧ constructorStep false (.opts false) = .thrown .configRequired := by
  decide

/-- C8 (amended): of the construction-time failures, only the pool-open
(connect) failure is caught and logged (src/index.ts:135), leaving the
singleton unset so that a next configured construction retries the
connect; missing required configuration is thrown synchronously to the
constructing caller. Once a pool exists, construction attempts nothing. -/
theorem C8_ctor_failure_policy (o : OptionsArg) :
    constructorStep false (.opts true) = .connectAttempt
    ∧ connectSettle false = (false, true)
    ∧ connectSettle true = (true, false)
    ∧ constructorStep false .undef = .thrown .configRequired
    ∧ constructorStep true o = .noAttempt := by
  cases o <;> simp [constructorStep, connectSettle]

/-- C9 counterexample: an explicitly supplied table name is not stored
exactly as given — the decorator lower-cases it
(`tableName?.toLowerCase()`, src/index.ts:36). -/
theorem C9_counterexample :
    tableDecoratorStored (some "MyOrders") "Order" ≠ "MyOrders"
    ∧ tableDecoratorStored (some "MyOrders") "Order" = "myorders" := by
  decide

/-- C9 (amended): a supplied non-empty table name is stored lower-cased;
an absent name, or a supplied empty name (falsy after lower-casing),
falls back to the lower-cased class name. -/
theorem C9_table_name_stored (name ctor : String) (hne : name ≠ "") :
    tableDecoratorStored (some name) ctor = jsToLowerCase name
    ∧ tableDecoratorStored none ctor = jsToLowerCase ctor
    ∧ tableDecoratorStored (some "") ctor = jsToLowerCase ctor := by
  refine ⟨?_, rfl, rfl⟩
  have hd : name.data ≠ [] := by
    intro hnil
    exact hne (String.ext hnil)
  have h1 : jsToLowerCase name ≠ "" := by
    simp only [jsToLowerCase]
    intro hmk
    have hdata : name.data.map Char.toLower = [] := congrArg String.data hmk
    rw [List.map_eq_nil_iff] at hdata
    exact hd hdata
  simp [tableDecoratorStored, h1]

/-- C9 witness: the amended theorem at the explicit name `MyOrders` on
the class `Order`. -/
theorem C9_witness :
    ("MyOrders" : String) ≠ ""
    ∧ tableDecoratorStored (some "MyOrders") "Order" = jsToLowerCase "MyOrders"
    ∧ tableDecoratorStored none "Order" = jsToLowerCase "Order"
    ∧ tableDecoratorStored (some "") "Order" = jsToLowerCase "Order" :=
  ⟨by decide, C9_table_name_stored "MyOrders" "Order" (by decide)⟩

/-- C10: with no pool, `insert` on an accepted input fails with the
pool-not-initialized error, but the handle's row buffer has already been
mutated by the time the error is raised: the extracted values of every
supplied row remain appended to the buffer after the failure — the
buffering at src/index.ts:194-198 precedes the throwing `this.request()`
at src/index.ts:200. -/
theorem C10_insert_not_atomic_on_error {V : Type} (h : Handle V)
    (arg : RowsArg (String → V))
    (hcols : h.innerColumns ≠ []) (hne : flatRows arg ≠ []) :
    (insert false h arg).outcome = .thrown .poolNotInitialized
    ∧ (insert false h arg).handle.rows
        = h.rows ++ (flatRows arg).map (extractRow h.innerColumns) := by
  rw [insert_accepted false h arg hcols hne]
  exact ⟨rfl, rfl⟩

/-- C10 witness: the theorem at `sampleHandle` with the two-row array
input and no pool. -/
theorem C10_witness :
    (sampleHandle.innerColumns ≠ [] ∧ flatRows sampleArray ≠ [])
    ∧ (insert false sampleHandle sampleArray).outcome
        = .thrown .poolNotInitialized
    ∧ (insert false sampleHandle sampleArray).handle.rows
        = sampleHandle.rows
          ++ (flatRows sampleArray).map (extractRow sampleHandle.innerColumns) :=
  ⟨⟨by decide, by simp [sampleArray, flatRows]⟩,
   C10_insert_not_atomic_on_error sampleHandle sampleArray
      (by decide) (by simp [sampleArray, flatRows])⟩

end MssqlOrm
